import Mathlib

/-!
Shallow embedding of the loudgain Loudness Scan Orchestration and Gain
Resolution Engine (src/src/scan.cpp, src/src/loudgain.cpp, src/src/main.cpp).
Machine doubles are modelled as real numbers; the external measurement
adapter (FFmpeg decode plus libebur128) is modelled as an oracle input.
-/

namespace Loudgain

/-- Scan status of a file or folder, mirroring enum SCANSTATUS in
include/scan.hpp (INIT, PROCESSING, FAIL, SUCCESS). -/
inductive ScanStatus
  | INIT
  | PROCESSING
  | FAIL
  | SUCCESS
deriving DecidableEq, Repr

/-- Audio codec identifier, mirroring the AVCodecID values the program
distinguishes (AV_CODEC_ID_OPUS is the only one treated specially by the
gain engine; the rest only matter for equality comparisons). -/
inductive CodecId
  | opus
  | vorbis
  | flac
  | mp3
  | speex
  | otherCodec
deriving DecidableEq, Repr

/-- The macro LUFS_TO_RG(L) = (-18 - L) from src/src/scan.cpp line 45. -/
def LUFS_TO_RG (l : ℝ) : ℝ := -18 - l

/-- gain_to_q78num from src/src/scan.cpp: round(gain * 256). -/
noncomputable def gain_to_q78num (gain : ℝ) : ℤ := round (gain * 256)

/-- One audio file under measurement: the fields of class AudioFile in
include/scan.hpp, with C++ doubles as reals. -/
structure AudioFile where
  scanStatus : ScanStatus := .INIT
  filePath : String := ""
  avCodecId : CodecId := .otherCodec
  avFormat : String := ""
  trackGain : ℝ := 0
  trackPeak : ℝ := 0
  newTrackPeak : ℝ := 0
  trackLoudness : ℝ := 0
  trackLoudnessRange : ℝ := 0
  trackClips : Bool := false
  albumGain : ℝ := 0
  albumPeak : ℝ := 0
  newAlbumPeak : ℝ := 0
  albumLoudness : ℝ := 0
  albumLoudnessRange : ℝ := 0
  albumClips : Bool := false
  loudnessReference : ℝ := 0
  clipPrevention : Bool := false

/-- Raw measurement produced by the external EBU R128 adapter for one file:
global loudness, loudness range, true peak (max over channels). -/
structure Measurement where
  loudness : ℝ
  loudnessRange : ℝ
  peak : ℝ

/-- The result of the external decode and measure service for one file:
codec identity, container format name, and the raw measurement. -/
structure ScanResult where
  codec : CodecId
  container : String
  meas : Measurement

/-- The tail of AudioFile::scanFile (src/src/scan.cpp lines 311 to 322):
given a successful measurement, apply the Opus pregain adjustment and
store the track scope results. -/
def scanFileResults (res : ScanResult) (pregain : ℝ) (af : AudioFile) : AudioFile :=
  let pg := if res.codec = CodecId.opus then pregain - 5 else pregain
  { af with
    avCodecId := res.codec
    avFormat := res.container
    trackGain := LUFS_TO_RG res.meas.loudness + pg
    trackPeak := res.meas.peak
    trackLoudness := res.meas.loudness
    trackLoudnessRange := res.meas.loudnessRange
    loudnessReference := LUFS_TO_RG (-pg)
    scanStatus := ScanStatus.SUCCESS }

/-- AudioFile::scanFile with the external adapter as an oracle: none models
any adapter failure (open, stream, decode or measure error), in which case
the file ends in FAIL with its measurement fields untouched; some models a
successful decode and measurement. -/
def scanFile (res : Option ScanResult) (pregain : ℝ) (af : AudioFile) : AudioFile :=
  match res with
  | none => { af with scanStatus := ScanStatus.FAIL }
  | some r => scanFileResults r pregain af

/-- An output record dispatched by the Result Sink paths of
LoudGain::processFileResults and LoudGain::processFolderResults. -/
inductive SinkEvent
  | csvFileRow (path : String)
  | tabRow (path : String)
  | consoleTrack (path : String)
  | csvAlbumRow (dir : String)
  | tabAlbumRow (dir : String)
  | consoleAlbum (dir : String)
deriving DecidableEq, Repr

/-- The configuration fields of class LoudGain (include/loudgain.hpp) that
the scan and result processing engine reads; csvOpen models
csvfile.is_open(). -/
structure LoudGain where
  verbosity : ℤ := 1
  scanAlbum : Bool := false
  tabOutput : Bool := false
  preventClipping : Bool := true
  maxTruePeakLevel : ℝ := -1
  pregain : ℝ := 0
  tagMode : Char := 's'
  csvOpen : Bool := false
  numberOfThreads : ℤ := 1

/-- The output records LoudGain::processFileResults emits for one file:
a CSV File row when the CSV file is open, then either a tab delimited row
(tabOutput) or a human readable record (otherwise, when verbosity is at
least 2). -/
def fileSinkEvents (cfg : LoudGain) (path : String) : List SinkEvent :=
  (if cfg.csvOpen then [SinkEvent.csvFileRow path] else []) ++
  (if cfg.tabOutput then [SinkEvent.tabRow path]
   else if 2 ≤ cfg.verbosity then [SinkEvent.consoleTrack path] else [])

/-- LoudGain::processFileResults (src/src/loudgain.cpp lines 323 to 559):
clip detection against the peak limit 10 ^ (maxTruePeakLevel / 20), clip
prevention when enabled, recomputation of the peak after gain, then the
Result Sink dispatch (tag writing is external and not modelled; it does not
alter the numeric fields). -/
noncomputable def processFileResults (cfg : LoudGain) (af : AudioFile) :
    AudioFile × List SinkEvent :=
  let tpeak : ℝ := (10 : ℝ) ^ (cfg.maxTruePeakLevel / 20)
  let apeak : ℝ := (10 : ℝ) ^ (cfg.maxTruePeakLevel / 20)
  let tgain : ℝ := (10 : ℝ) ^ (af.trackGain / 20) * af.trackPeak
  let af1 := if tgain > tpeak then { af with trackClips := true } else af
  let again : ℝ := (10 : ℝ) ^ (af1.albumGain / 20) * af1.albumPeak
  let af2 :=
    if cfg.scanAlbum ∧ again > apeak then { af1 with albumClips := true } else af1
  let af3 :=
    if (af2.trackClips || af2.albumClips) ∧ cfg.preventClipping then
      let afA :=
        if af2.trackClips then
          { af2 with
            trackGain := af2.trackGain - Real.logb 10 (tgain / tpeak) * 20
            trackClips := false }
        else af2
      let afB :=
        if cfg.scanAlbum ∧ afA.albumClips then
          { afA with
            albumGain := afA.albumGain - Real.logb 10 (again / apeak) * 20
            albumClips := false }
        else afA
      { afB with clipPrevention := true }
    else af2
  let af4 := { af3 with newTrackPeak := (10 : ℝ) ^ (af3.trackGain / 20) * af3.trackPeak }
  let af5 :=
    if cfg.scanAlbum then
      { af4 with newAlbumPeak := (10 : ℝ) ^ (af4.albumGain / 20) * af4.albumPeak }
    else af4
  (af5, fileSinkEvents cfg af.filePath)

/-- A folder scoped album unit: the member files and the folder scan
status, mirroring class AudioFolder (include/scan.hpp). -/
structure AudioFolder where
  audioFiles : List AudioFile
  scanStatus : ScanStatus := .INIT

/-- AudioFolder::hasDifferentContainers: some member after the first has a
container format different from the first member. -/
def hasDifferentContainers (f : AudioFolder) : Bool :=
  match f.audioFiles with
  | [] => false
  | a :: rest => rest.any (fun b => a.avFormat != b.avFormat)

/-- AudioFolder::hasDifferentCodecs: some member after the first has a
codec different from the first member. -/
def hasDifferentCodecs (f : AudioFolder) : Bool :=
  match f.audioFiles with
  | [] => false
  | a :: rest => rest.any (fun b => decide (a.avCodecId ≠ b.avCodecId))

/-- AudioFolder::hasOpus: some member is an Opus file. -/
def hasOpus (f : AudioFolder) : Bool :=
  f.audioFiles.any (fun a => decide (a.avCodecId = CodecId.opus))

/-- The album peak computed by AudioFolder::processResults: fold of max
over the member track peaks, starting from 0.0. -/
noncomputable def albumPeakOf (files : List AudioFile) : ℝ :=
  files.foldl (fun acc a => max acc a.trackPeak) 0

/-- The failure causes AudioFolder::processResults reports on stderr,
each with its own distinct diagnostic text. -/
inductive FolderError
  | mixedOpus
  | albumLoudnessFail
  | albumRangeFail
deriving DecidableEq, Repr

/-- AudioFolder::processResults (src/src/scan.cpp lines 474 to 542). The
two external multi file aggregation primitives
(ebur128_loudness_global_multiple and ebur128_loudness_range_multiple) are
oracle inputs gl and lra; none models a failing call. Returns the updated
folder, the boolean return value, and the diagnostic reported, if any. -/
noncomputable def processResults (gl lra : Option ℝ) (pregain : ℝ)
    (f : AudioFolder) : AudioFolder × Bool × Option FolderError :=
  if f.scanStatus = ScanStatus.FAIL then (f, false, none)
  else if f.scanStatus = ScanStatus.SUCCESS then (f, true, none)
  else if (hasDifferentContainers f || hasDifferentCodecs f) && hasOpus f then
    ({ f with scanStatus := ScanStatus.FAIL }, false, some FolderError.mixedOpus)
  else
    match gl with
    | none => ({ f with scanStatus := ScanStatus.FAIL }, false,
               some FolderError.albumLoudnessFail)
    | some gLoudness =>
      match lra with
      | none => ({ f with scanStatus := ScanStatus.FAIL }, false,
                 some FolderError.albumRangeFail)
      | some gRange =>
        let pg := if hasOpus f then pregain - 5 else pregain
        let apk := albumPeakOf f.audioFiles
        let files := f.audioFiles.map (fun a =>
          { a with
            albumGain := LUFS_TO_RG gLoudness + pg
            albumPeak := apk
            albumLoudness := gLoudness
            albumLoudnessRange := gRange })
        ({ audioFiles := files, scanStatus := ScanStatus.SUCCESS }, true, none)

/-- The per file body of the track only branch of AudioLibrary::scanLibrary
(src/src/scan.cpp lines 668 to 674): construct a fresh AudioFile, call
scanFile, then call LoudGain::processFileResults unconditionally, with no
check of the scan status. -/
noncomputable def trackModeProcessFile (cfg : LoudGain) (res : Option ScanResult)
    (path : String) : AudioFile × List SinkEvent :=
  let af := scanFile res cfg.pregain { filePath := path }
  processFileResults cfg af

/-- LoudGain::setNumberOfThreads (src/src/loudgain.cpp lines 178 to 186):
maxt is std::thread::hardware_concurrency(); the stored thread count is
maxt - 1 when n is not positive, else min n maxt. -/
def setNumberOfThreads (maxt n : ℤ) : ℤ :=
  if n ≤ 0 then maxt - 1 else min n maxt

/-- The degree of parallelism the scan loops actually use: both
AudioLibrary::scanLibrary (line 629) and AudioFolder::scanFolder (line 447)
clamp the stored count with std::max(1, numberOfThreads). -/
def usedThreads (maxt n : ℤ) : ℤ :=
  max 1 (setNumberOfThreads maxt n)

/-- The valid tag mode characters, the string "dies" in
LoudGain::setTagMode (src/src/loudgain.cpp line 83). -/
def validTagModes : List Char := ['d', 'i', 'e', 's']

/-- LoudGain::setTagMode: none models exit(EXIT_FAILURE); some c models
storing c as the tag mode. -/
def setTagMode (c : Char) : Option Char :=
  if c ∈ validTagModes then some c else none

/-- What a run of main does after the tag mode option is handled: either
the process exits with the given status before any scan work, or scanning
proceeds with the stored tag mode. -/
inductive MainOutcome
  | exited (status : ℕ)
  | scanned (tagMode : Char)
deriving DecidableEq, Repr

/-- The tag mode handling of main (src/src/main.cpp lines 249 to 252)
followed by the scan phase: setTagMode runs before scanLibrary or
removeReplayGainTags is ever called, and an invalid character exits the
process with EXIT_FAILURE (1). -/
def mainWithTagMode (c : Char) : MainOutcome :=
  match setTagMode c with
  | none => MainOutcome.exited 1
  | some m => MainOutcome.scanned m

/-- Abstraction of the filesystem queries AudioLibrary makes:
directory and regular file tests, the path extension, and directory
listings (plain and recursive). -/
structure FileSystem where
  isDir : String → Bool
  isRegular : String → Bool
  extOf : String → String
  entries : String → List String
  entriesRec : String → List String

/-- AudioLibrary::isOnlyDirectories (src/src/scan.cpp lines 680 to 690). -/
def isOnlyDirectories (fs : FileSystem) (paths : List String) : Bool :=
  paths.all fs.isDir

/-- AudioLibrary::isSupportedAudioFile: a regular file whose extension is
in the active extension list. -/
def isSupportedAudioFile (fs : FileSystem) (exts : List String)
    (p : String) : Bool :=
  fs.isRegular p && exts.contains (fs.extOf p)

/-- AudioLibrary::getSupportedAudioFiles (src/src/scan.cpp lines 703 to
735): when every library path is a directory, collect supported files from
the directory listings (recursive when enabled); otherwise keep exactly
the library paths that are themselves supported audio files. The result is
a set in the source; membership is what the claims are about. -/
def getSupportedAudioFiles (fs : FileSystem) (exts : List String)
    (recursive : Bool) (paths : List String) : List String :=
  if isOnlyDirectories fs paths then
    paths.flatMap (fun d =>
      (if recursive then fs.entriesRec d else fs.entries d).filter
        (isSupportedAudioFile fs exts))
  else
    paths.filter (isSupportedAudioFile fs exts)

/-!
Interleaving model for the album mode branch of AudioLibrary::scanLibrary
(src/src/scan.cpp lines 645 to 660). Each member task of one AlbumUnit
runs three steps, in order, on its worker thread:

  scan:    audio_files[i].second->scanFile(...) completes (successfully,
           by the hypothesis of claim C1);
  check:   the task reads audio_files[i].first.use_count(); if it is the
           sole remaining holder (count 1) and canProcessResults() holds
           and the folder status is INIT, it runs processResults followed
           by processFolderResults (counted by aggCount);
  release: audio_files[i].first.reset() drops the reference.

A schedule is the order in which the worker threads interleave these
atomic steps; holders counts the pairs that have not yet been reset.
-/

/-- Progress of one member task of an album unit. -/
inductive TaskPhase
  | idle
  | scanned
  | checked
  | released
deriving DecidableEq, Repr

/-- State of one AlbumUnit during the parallel loop: the phase of each
member task, the folder scan status, and how many times the aggregation
block has run. -/
structure AlbState where
  phases : List TaskPhase
  status : ScanStatus
  aggCount : ℕ
deriving DecidableEq, Repr

/-- Number of pair entries still holding a reference to the folder:
every task that has not yet executed its reset step. -/
def holders (s : AlbState) : ℕ :=
  (s.phases.filter (fun p => decide (p ≠ TaskPhase.released))).length

/-- AudioFolder::canProcessResults under the claim C1 hypothesis that all
member scans succeed: every member has completed its scanFile call. -/
def allScanned (s : AlbState) : Prop :=
  ∀ p ∈ s.phases, p ≠ TaskPhase.idle

instance (s : AlbState) : Decidable (allScanned s) :=
  List.decidableBAll _ s.phases

/-- One atomic step of task t in the interleaving model. -/
def stepTask (s : AlbState) (t : ℕ) : AlbState :=
  match s.phases.getD t TaskPhase.released with
  | TaskPhase.idle => { s with phases := s.phases.set t TaskPhase.scanned }
  | TaskPhase.scanned =>
      if holders s = 1 ∧ allScanned s ∧ s.status = ScanStatus.INIT then
        { phases := s.phases.set t TaskPhase.checked
          status := ScanStatus.SUCCESS
          aggCount := s.aggCount + 1 }
      else { s with phases := s.phases.set t TaskPhase.checked }
  | TaskPhase.checked => { s with phases := s.phases.set t TaskPhase.released }
  | TaskPhase.released => s

/-- Initial state of an AlbumUnit with n member tasks: every pair holds a
reference, nothing scanned, folder status INIT. -/
def initAlb (n : ℕ) : AlbState :=
  { phases := List.replicate n TaskPhase.idle
    status := ScanStatus.INIT
    aggCount := 0 }

/-- Run a schedule (a sequence of task identifiers; each occurrence lets
that task perform its next pending step). -/
def runSched (n : ℕ) (sched : List ℕ) : AlbState :=
  sched.foldl stepTask (initAlb n)

/-- The serialized completion order: task 0 runs its three steps to the
end, then task 1, and so on (this is what the loop does when OpenMP runs
it with one thread). -/
def seqSched (n : ℕ) : List ℕ :=
  (List.range n).flatMap (fun i => [i, i, i])

/-- A schedule is complete when it drives every task to its released
phase. -/
def completeRun (n : ℕ) (sched : List ℕ) : Prop :=
  ∀ p ∈ (runSched n sched).phases, p = TaskPhase.released

instance (n : ℕ) (sched : List ℕ) : Decidable (completeRun n sched) :=
  List.decidableBAll _ (runSched n sched).phases

/-- Invariant of the album unit state machine: either no aggregation has
happened and the folder status is still INIT, or aggregation has happened
exactly once, the status is SUCCESS, and at that point every member scan
had finished. -/
def albInv (s : AlbState) : Prop :=
  (s.status = ScanStatus.INIT ∧ s.aggCount = 0) ∨
  (s.status = ScanStatus.SUCCESS ∧ s.aggCount = 1 ∧ allScanned s)

/-- Sample album unit mixing an Opus and a Vorbis member (same Ogg
container, different codecs). -/
def mixedOpusFolder : AudioFolder :=
  { audioFiles := [{ avCodecId := CodecId.opus, avFormat := "ogg" },
                   { avCodecId := CodecId.vorbis, avFormat := "ogg" }] }

/-- Sample album unit mixing containers and codecs with no Opus member. -/
def mixedNoOpusFolder : AudioFolder :=
  { audioFiles := [{ avCodecId := CodecId.vorbis, avFormat := "ogg" },
                   { avCodecId := CodecId.flac, avFormat := "flac" }] }

/-- Sample single member album unit: one Vorbis file with track peak 1. -/
def singleVorbisFolder : AudioFolder :=
  { audioFiles := [{ avCodecId := CodecId.vorbis, avFormat := "ogg",
                     trackPeak := 1 }] }

/-- Sample filesystem: one regular audio file a.mp3 and one directory dir
whose listing holds b.mp3. -/
def sampleFS : FileSystem :=
  { isDir := fun p => p == "dir"
    isRegular := fun p => p == "a.mp3" || p == "b.mp3"
    extOf := fun _ => ".mp3"
    entries := fun _ => ["b.mp3"]
    entriesRec := fun _ => ["b.mp3"] }

/-- Sample mixed library path list: a regular file and a directory. -/
def samplePaths : List String := ["a.mp3", "dir"]

end Loudgain

namespace Loudgain

/-! Theorems. -/

/-- Claim C3: for every Opus track, 5.0 is subtracted from the pregain
before computing gain and loudness reference; a single Opus track with
loudness -23 LUFS and user pregain 0 yields track gain exactly
0 = -18 - (-23) + (-5). -/
theorem opusPregainAdjustment (cont : String) (L lra P G : ℝ) (af : AudioFile) :
    (scanFileResults ⟨CodecId.opus, cont, ⟨L, lra, P⟩⟩ G af).trackGain
        = -18 - L + (G - 5) ∧
    (scanFileResults ⟨CodecId.opus, cont, ⟨L, lra, P⟩⟩ G af).loudnessReference
        = -18 + (G - 5) ∧
    (scanFileResults ⟨CodecId.opus, cont, ⟨-23, lra, P⟩⟩ 0 af).trackGain = 0 := by
  refine ⟨?_, ?_, ?_⟩ <;> simp [scanFileResults, LUFS_TO_RG] <;> ring

/-- Claim C8: the degree of parallelism actually used by the scan loops is
available parallelism minus one, floored at 1, when the configured count
is not positive, and min of the configured count and available parallelism
otherwise; it is never less than 1. Available parallelism maxt is
positive. -/
theorem threadCountPolicy (maxt n : ℤ) (h : 1 ≤ maxt) :
    (n ≤ 0 → usedThreads maxt n = max 1 (maxt - 1)) ∧
    (0 < n → usedThreads maxt n = min n maxt) ∧
    1 ≤ usedThreads maxt n := by
  unfold usedThreads setNumberOfThreads
  refine ⟨fun hn => ?_, fun hn => ?_, le_max_left 1 _⟩
  · rw [if_pos hn]
  · rw [if_neg (not_le.mpr hn)]
    exact max_eq_right (le_min hn h)

/-- Witness for threadCountPolicy at maxt = 4, n = -2 and n = 3. -/
theorem threadCountPolicy_witness :
    usedThreads 4 (-2) = max 1 3 ∧ usedThreads 4 3 = min 3 4 :=
  ⟨(threadCountPolicy 4 (-2) (by decide)).1 (by decide),
   (threadCountPolicy 4 3 (by decide)).2.1 (by decide)⟩

/-- Claim C9: setting the tag mode with a character outside d, i, e, s
exits the process with a non zero status before any scanning begins, and
a character in that set is stored as the tag mode and scanning proceeds. -/
theorem tagModeValidation (c : Char) :
    (c ∉ validTagModes → mainWithTagMode c = MainOutcome.exited 1) ∧
    (c ∈ validTagModes → mainWithTagMode c = MainOutcome.scanned c) := by
  constructor <;> intro h <;> simp [mainWithTagMode, setTagMode, h]

/-- Witness for tagModeValidation at the invalid character x and the valid
character i. -/
theorem tagModeValidation_witness :
    mainWithTagMode 'x' = MainOutcome.exited 1 ∧
    mainWithTagMode 'i' = MainOutcome.scanned 'i' :=
  ⟨(tagModeValidation 'x').1 (by decide), (tagModeValidation 'i').2 (by decide)⟩

/-- Claim C2: for a successfully scanned non Opus track with loudness L,
peak P and pregain G, when the peak after gain does not exceed the peak
limit 10 ^ (maxTruePeakLevel / 20), the track gain is -18 - L + G, the
loudness reference is -18 + G, and the trackClips and clipPrevention flags
are both still false after result processing (track only mode). -/
theorem trackNoClipGainResolution (cfg : LoudGain) (c : CodecId) (cont p : String)
    (L lra P G : ℝ)
    (hc : c ≠ CodecId.opus)
    (halbum : cfg.scanAlbum = false)
    (hnoclip : (10 : ℝ) ^ ((-18 - L + G) / 20) * P ≤
      (10 : ℝ) ^ (cfg.maxTruePeakLevel / 20)) :
    ((processFileResults cfg (scanFile (some ⟨c, cont, ⟨L, lra, P⟩⟩) G
        { filePath := p })).1.trackGain,
     (processFileResults cfg (scanFile (some ⟨c, cont, ⟨L, lra, P⟩⟩) G
        { filePath := p })).1.loudnessReference,
     (processFileResults cfg (scanFile (some ⟨c, cont, ⟨L, lra, P⟩⟩) G
        { filePath := p })).1.trackClips,
     (processFileResults cfg (scanFile (some ⟨c, cont, ⟨L, lra, P⟩⟩) G
        { filePath := p })).1.clipPrevention) =
    (-18 - L + G, -18 + G, false, false) := by
  have h1 : ¬ ((10 : ℝ) ^ (cfg.maxTruePeakLevel / 20) <
      (10 : ℝ) ^ ((-18 - L + G) / 20) * P) := not_lt.mpr hnoclip
  simp [scanFile, scanFileResults, processFileResults, LUFS_TO_RG, hc, halbum, h1]

/-- Witness for trackNoClipGainResolution with the default configuration,
a Vorbis track, L = 0, P = 0, G = 0. -/
theorem trackNoClipGainResolution_witness :
    ((10 : ℝ) ^ (((-18 : ℝ) - 0 + 0) / 20) * 0 ≤
      (10 : ℝ) ^ ((({} : LoudGain)).maxTruePeakLevel / 20)) ∧
    ((processFileResults {} (scanFile (some ⟨CodecId.vorbis, "ogg", ⟨0, 0, 0⟩⟩) 0
        { filePath := "t" })).1.trackGain,
     (processFileResults {} (scanFile (some ⟨CodecId.vorbis, "ogg", ⟨0, 0, 0⟩⟩) 0
        { filePath := "t" })).1.loudnessReference,
     (processFileResults {} (scanFile (some ⟨CodecId.vorbis, "ogg", ⟨0, 0, 0⟩⟩) 0
        { filePath := "t" })).1.trackClips,
     (processFileResults {} (scanFile (some ⟨CodecId.vorbis, "ogg", ⟨0, 0, 0⟩⟩) 0
        { filePath := "t" })).1.clipPrevention) =
    ((-18 : ℝ) - 0 + 0, (-18 : ℝ) + 0, false, false) := by
  have h : (10 : ℝ) ^ (((-18 : ℝ) - 0 + 0) / 20) * 0 ≤
      (10 : ℝ) ^ ((({} : LoudGain)).maxTruePeakLevel / 20) := by
    rw [mul_zero]
    positivity
  exact ⟨h, trackNoClipGainResolution {} CodecId.vorbis "ogg" "t" 0 0 0 0
    (by decide) rfl h⟩

/-- Key algebraic fact behind clip prevention: after the gain has been
reduced by logb 10 (peakAfterGain / peakLimit) * 20, the recomputed peak
after gain equals the peak limit exactly. -/
theorem correctedPeakEq (g P pl : ℝ) (hpl : 0 < pl)
    (h : pl < (10 : ℝ) ^ (g / 20) * P) :
    (10 : ℝ) ^ ((g - Real.logb 10 ((10 : ℝ) ^ (g / 20) * P / pl) * 20) / 20) * P = pl := by
  have ha : (0 : ℝ) < (10 : ℝ) ^ (g / 20) * P := lt_trans hpl h
  have hq : (0 : ℝ) < (10 : ℝ) ^ (g / 20) * P / pl := div_pos ha hpl
  have hkey : (g - Real.logb 10 ((10 : ℝ) ^ (g / 20) * P / pl) * 20) / 20
      = g / 20 - Real.logb 10 ((10 : ℝ) ^ (g / 20) * P / pl) := by ring
  rw [hkey, Real.rpow_sub (by norm_num : (0 : ℝ) < 10),
      Real.rpow_logb (by norm_num) (by norm_num) hq]
  rw [div_div_eq_mul_div, div_mul_eq_mul_div]
  rw [mul_right_comm, mul_div_assoc, mul_comm, div_mul_cancel₀ pl (ne_of_gt ha)]

/-- Claim C4: when clipping is detected (peak after gain strictly exceeds
the peak limit) and clip prevention is enabled, result processing reduces
the gain by 20 * log10 (peakAfterGain / peakLimit), clears the clip
detected flags, sets the clip prevention flag, and the recomputed
newTrackPeak and newAlbumPeak equal the peak limit to within 1e-9. -/
theorem clipPreventionCorrection (cfg : LoudGain) (af : AudioFile)
    (hp : cfg.preventClipping = true)
    (halb : cfg.scanAlbum = true)
    (ht : (10 : ℝ) ^ (cfg.maxTruePeakLevel / 20) <
      (10 : ℝ) ^ (af.trackGain / 20) * af.trackPeak)
    (hb : (10 : ℝ) ^ (cfg.maxTruePeakLevel / 20) <
      (10 : ℝ) ^ (af.albumGain / 20) * af.albumPeak) :
    ((processFileResults cfg af).1.trackGain,
     (processFileResults cfg af).1.albumGain,
     (processFileResults cfg af).1.trackClips,
     (processFileResults cfg af).1.albumClips,
     (processFileResults cfg af).1.clipPrevention) =
      (af.trackGain - 20 * Real.logb 10 ((10 : ℝ) ^ (af.trackGain / 20) * af.trackPeak /
          (10 : ℝ) ^ (cfg.maxTruePeakLevel / 20)),
       af.albumGain - 20 * Real.logb 10 ((10 : ℝ) ^ (af.albumGain / 20) * af.albumPeak /
          (10 : ℝ) ^ (cfg.maxTruePeakLevel / 20)),
       false, false, true) ∧
    |(processFileResults cfg af).1.newTrackPeak -
        (10 : ℝ) ^ (cfg.maxTruePeakLevel / 20)| ≤ 1e-9 ∧
    |(processFileResults cfg af).1.newAlbumPeak -
        (10 : ℝ) ^ (cfg.maxTruePeakLevel / 20)| ≤ 1e-9 := by
  have hpl : (0 : ℝ) < (10 : ℝ) ^ (cfg.maxTruePeakLevel / 20) :=
    Real.rpow_pos_of_pos (by norm_num) _
  have e1 := correctedPeakEq af.trackGain af.trackPeak _ hpl ht
  have e2 := correctedPeakEq af.albumGain af.albumPeak _ hpl hb
  simp [processFileResults, hp, halb, ht, hb, e1, e2]
  exact ⟨⟨by ring, by ring⟩, by norm_num⟩

/-- Witness for clipPreventionCorrection: peak limit 0 dBTP, track and
album gain 0, track and album peak 2 (both clip). -/
theorem clipPreventionCorrection_witness :
    ((10 : ℝ) ^ ((0 : ℝ) / 20) < (10 : ℝ) ^ ((0 : ℝ) / 20) * 2) ∧
    ((processFileResults { scanAlbum := true, maxTruePeakLevel := 0 }
        { trackGain := 0, trackPeak := 2, albumGain := 0, albumPeak := 2 }).1.trackGain,
     (processFileResults { scanAlbum := true, maxTruePeakLevel := 0 }
        { trackGain := 0, trackPeak := 2, albumGain := 0, albumPeak := 2 }).1.albumGain,
     (processFileResults { scanAlbum := true, maxTruePeakLevel := 0 }
        { trackGain := 0, trackPeak := 2, albumGain := 0, albumPeak := 2 }).1.trackClips,
     (processFileResults { scanAlbum := true, maxTruePeakLevel := 0 }
        { trackGain := 0, trackPeak := 2, albumGain := 0, albumPeak := 2 }).1.albumClips,
     (processFileResults { scanAlbum := true, maxTruePeakLevel := 0 }
        { trackGain := 0, trackPeak := 2, albumGain := 0, albumPeak := 2 }).1.clipPrevention) =
      ((0 : ℝ) - 20 * Real.logb 10 ((10 : ℝ) ^ ((0 : ℝ) / 20) * 2 / (10 : ℝ) ^ ((0 : ℝ) / 20)),
       (0 : ℝ) - 20 * Real.logb 10 ((10 : ℝ) ^ ((0 : ℝ) / 20) * 2 / (10 : ℝ) ^ ((0 : ℝ) / 20)),
       false, false, true) ∧
    |(processFileResults { scanAlbum := true, maxTruePeakLevel := 0 }
        { trackGain := 0, trackPeak := 2, albumGain := 0, albumPeak := 2 }).1.newTrackPeak -
      (10 : ℝ) ^ ((0 : ℝ) / 20)| ≤ 1e-9 ∧
    |(processFileResults { scanAlbum := true, maxTruePeakLevel := 0 }
        { trackGain := 0, trackPeak := 2, albumGain := 0, albumPeak := 2 }).1.newAlbumPeak -
      (10 : ℝ) ^ ((0 : ℝ) / 20)| ≤ 1e-9 := by
  have hlt : (10 : ℝ) ^ ((0 : ℝ) / 20) < (10 : ℝ) ^ ((0 : ℝ) / 20) * 2 := by
    rw [zero_div, Real.rpow_zero]
    norm_num
  have hmain := clipPreventionCorrection { scanAlbum := true, maxTruePeakLevel := 0 }
    { trackGain := 0, trackPeak := 2, albumGain := 0, albumPeak := 2 } rfl rfl hlt hlt
  exact ⟨hlt, hmain⟩

/-- Claim C5: an album unit that mixes containers or codecs and contains
an Opus member fails aggregation: processResults sets FAIL and returns
false with the distinct mixed Opus diagnostic, leaving the member files
untouched (no album fields computed); a mixed album without Opus is not
failed by this rule. -/
theorem mixedOpusAlbumFails (gl lra : Option ℝ) (G : ℝ) (f : AudioFolder)
    (hinit : f.scanStatus = ScanStatus.INIT) :
    ((hasDifferentContainers f || hasDifferentCodecs f) = true → hasOpus f = true →
      processResults gl lra G f =
        ({ f with scanStatus := ScanStatus.FAIL }, false, some FolderError.mixedOpus)) ∧
    (hasOpus f = false → ∀ gL gR : ℝ,
      (processResults (some gL) (some gR) G f).1.scanStatus = ScanStatus.SUCCESS ∧
      (processResults (some gL) (some gR) G f).2.1 = true ∧
      (processResults (some gL) (some gR) G f).2.2 = none) := by
  constructor
  · intro hm ho
    simp [processResults, hinit, hm, ho]
  · intro ho gL gR
    simp [processResults, hinit, ho]

/-- Witness for mixedOpusAlbumFails: a folder with one Opus and one Vorbis
member fails with the mixed Opus diagnostic; a mixed container folder
without Opus succeeds. -/
theorem mixedOpusAlbumFails_witness :
    ((hasDifferentContainers mixedOpusFolder || hasDifferentCodecs mixedOpusFolder) = true ∧
     hasOpus mixedOpusFolder = true ∧
     processResults none none 0 mixedOpusFolder =
       ({ mixedOpusFolder with scanStatus := ScanStatus.FAIL }, false,
        some FolderError.mixedOpus)) ∧
    (hasOpus mixedNoOpusFolder = false ∧
     (processResults (some 0) (some 0) 0 mixedNoOpusFolder).2.1 = true) := by
  have hm : (hasDifferentContainers mixedOpusFolder ||
      hasDifferentCodecs mixedOpusFolder) = true := by decide
  have ho : hasOpus mixedOpusFolder = true := by decide
  have hn : hasOpus mixedNoOpusFolder = false := by decide
  exact ⟨⟨hm, ho, (mixedOpusAlbumFails none none 0 mixedOpusFolder rfl).1 hm ho⟩,
         ⟨hn, ((mixedOpusAlbumFails (some 0) (some 0) 0 mixedNoOpusFolder rfl).2 hn 0 0).2.1⟩⟩

/-- The fold of max is at least its initial value. -/
theorem foldlMax_init_le (l : List AudioFile) (init : ℝ) :
    init ≤ l.foldl (fun acc b => max acc b.trackPeak) init := by
  induction l generalizing init with
  | nil => simp
  | cons x xs ih => exact le_trans (le_max_left _ _) (ih (max init x.trackPeak))

/-- Every member track peak is bounded by the fold of max. -/
theorem mem_le_foldlMax (l : List AudioFile) (init : ℝ) (a : AudioFile)
    (ha : a ∈ l) :
    a.trackPeak ≤ l.foldl (fun acc b => max acc b.trackPeak) init := by
  induction l generalizing init with
  | nil => cases ha
  | cons x xs ih =>
    rcases List.mem_cons.mp ha with h | h
    · subst h
      exact le_trans (le_max_right init a.trackPeak) (foldlMax_init_le xs _)
    · exact ih (max init x.trackPeak) h

/-- The fold of max is the initial value or is attained by a member. -/
theorem foldlMax_attained (l : List AudioFile) (init : ℝ) :
    l.foldl (fun acc b => max acc b.trackPeak) init = init ∨
      ∃ b ∈ l, l.foldl (fun acc b => max acc b.trackPeak) init = b.trackPeak := by
  induction l generalizing init with
  | nil => left; rfl
  | cons x xs ih =>
    rcases ih (max init x.trackPeak) with h | ⟨b, hb, he⟩
    · rcases max_choice init x.trackPeak with hm | hm
      · left
        rw [List.foldl_cons, h, hm]
      · right
        exact ⟨x, List.mem_cons_self x xs, by rw [List.foldl_cons, h, hm]⟩
    · right
      exact ⟨b, List.mem_cons_of_mem _ hb, by rw [List.foldl_cons]; exact he⟩

/-- With nonnegative track peaks, the album peak of a nonempty member list
is attained by some member. -/
theorem albumPeakOf_attained (l : List AudioFile)
    (hnn : ∀ a ∈ l, 0 ≤ a.trackPeak) (hne : l ≠ []) :
    ∃ b ∈ l, albumPeakOf l = b.trackPeak := by
  rcases foldlMax_attained l 0 with h | h
  · match l, hne with
    | x :: xs, _ =>
      refine ⟨x, List.mem_cons_self x xs, ?_⟩
      have h1 : x.trackPeak ≤ albumPeakOf (x :: xs) :=
        mem_le_foldlMax _ 0 x (List.mem_cons_self x xs)
      have h2 : 0 ≤ x.trackPeak := hnn x (List.mem_cons_self x xs)
      have h0 : albumPeakOf (x :: xs) = 0 := h
      rw [albumPeakOf] at h1 ⊢
      rw [albumPeakOf] at h0
      linarith
  · exact h

/-- Claim C6: when aggregation succeeds, every member receives the same
album fields: albumPeak is the maximum of the member track peaks,
albumGain is -18 - albumLoudness + pregain with 5.0 subtracted once at
album scope when any member is Opus, and albumLoudness and
albumLoudnessRange come from the external aggregation primitive. -/
theorem albumAggregationFields (gL gR G : ℝ) (f : AudioFolder)
    (hinit : f.scanStatus = ScanStatus.INIT)
    (hnomix : ((hasDifferentContainers f || hasDifferentCodecs f) && hasOpus f) = false)
    (hnn : ∀ a ∈ f.audioFiles, 0 ≤ a.trackPeak) :
    (∀ a ∈ (processResults (some gL) (some gR) G f).1.audioFiles,
        a.albumPeak = albumPeakOf f.audioFiles ∧
        a.albumGain = -18 - gL + (if hasOpus f then G - 5 else G) ∧
        a.albumLoudness = gL ∧
        a.albumLoudnessRange = gR) ∧
    (∀ a ∈ f.audioFiles, a.trackPeak ≤ albumPeakOf f.audioFiles) ∧
    (f.audioFiles ≠ [] → ∃ b ∈ f.audioFiles, albumPeakOf f.audioFiles = b.trackPeak) := by
  refine ⟨?_, fun a ha => mem_le_foldlMax _ 0 a ha,
    fun hne => albumPeakOf_attained _ hnn hne⟩
  intro a ha
  simp [processResults, hinit, hnomix] at ha
  rcases ha with ⟨b, hb, rfl⟩
  simp [LUFS_TO_RG]

/-- Witness for albumAggregationFields: one Vorbis member with track peak
1, album loudness -20, range 2, pregain 0. -/
theorem albumAggregationFields_witness :
    (((hasDifferentContainers singleVorbisFolder || hasDifferentCodecs singleVorbisFolder) &&
        hasOpus singleVorbisFolder) = false) ∧
    ((∀ a ∈ (processResults (some (-20)) (some 2) 0 singleVorbisFolder).1.audioFiles,
        a.albumPeak = albumPeakOf singleVorbisFolder.audioFiles ∧
        a.albumGain = -18 - (-20) + (if hasOpus singleVorbisFolder then 0 - 5 else (0 : ℝ)) ∧
        a.albumLoudness = -20 ∧
        a.albumLoudnessRange = 2) ∧
     (∀ a ∈ singleVorbisFolder.audioFiles,
        a.trackPeak ≤ albumPeakOf singleVorbisFolder.audioFiles) ∧
     (singleVorbisFolder.audioFiles ≠ [] →
       ∃ b ∈ singleVorbisFolder.audioFiles,
         albumPeakOf singleVorbisFolder.audioFiles = b.trackPeak)) := by
  have hnn : ∀ a ∈ singleVorbisFolder.audioFiles, 0 ≤ a.trackPeak := by
    intro a ha
    simp [singleVorbisFolder] at ha
    subst ha
    exact zero_le_one
  exact ⟨by decide, albumAggregationFields (-20) 2 0 singleVorbisFolder rfl (by decide) hnn⟩

/-- Claim C7 evaluated against the code: in track only mode the loop body
of AudioLibrary::scanLibrary calls processFileResults without checking the
scan status, so a file whose scanFile call failed still produces a CSV
File row and a tab row (with default zero measurements), contradicting the
stated skip behavior. -/
theorem failedTrackStillOutputs :
    (scanFile none 0 ({ filePath := "bad.mp3" } : AudioFile)).scanStatus =
      ScanStatus.FAIL ∧
    (trackModeProcessFile { csvOpen := true, tabOutput := true } none "bad.mp3").2 =
      [SinkEvent.csvFileRow "bad.mp3", SinkEvent.tabRow "bad.mp3"] ∧
    (trackModeProcessFile { csvOpen := true, tabOutput := true } none "bad.mp3").1.scanStatus =
      ScanStatus.FAIL := by
  refine ⟨rfl, rfl, ?_⟩
  have hnc : ¬ ((10 : ℝ) ^ ((-1 : ℝ) / 20) < 0) :=
    not_lt.mpr (le_of_lt (Real.rpow_pos_of_pos (by norm_num) _))
  simp [trackModeProcessFile, scanFile, processFileResults, hnc]

/-- Claim C10: directory traversal is all or nothing: when every library
path is a directory, the collected files are exactly the supported files
of the directory listings; when at least one path is not a directory, the
result is exactly the library paths that are themselves supported audio
files, no listing is consulted, and a directory mixed into the list
contributes nothing. -/
theorem libraryTraversalAllOrNothing (fs : FileSystem) (exts : List String)
    (recursive : Bool) (paths : List String)
    (hwf : ∀ p ∈ paths, ¬ (fs.isDir p = true ∧ fs.isRegular p = true)) :
    (isOnlyDirectories fs paths = true →
      ∀ p, p ∈ getSupportedAudioFiles fs exts recursive paths ↔
        ∃ d ∈ paths, p ∈ (if recursive then fs.entriesRec d else fs.entries d) ∧
          isSupportedAudioFile fs exts p = true) ∧
    (isOnlyDirectories fs paths = false →
      (∀ p, p ∈ getSupportedAudioFiles fs exts recursive paths ↔
        p ∈ paths ∧ isSupportedAudioFile fs exts p = true) ∧
      (∀ e1 e2, getSupportedAudioFiles
          { fs with entries := e1, entriesRec := e2 } exts recursive paths =
          getSupportedAudioFiles fs exts recursive paths) ∧
      (∀ d ∈ paths, fs.isDir d = true →
        d ∉ getSupportedAudioFiles fs exts recursive paths)) := by
  constructor
  · intro hdir p
    simp [getSupportedAudioFiles, hdir, List.mem_flatMap, List.mem_filter, and_assoc]
  · intro hmix
    have h1 : ∀ p, p ∈ getSupportedAudioFiles fs exts recursive paths ↔
        p ∈ paths ∧ isSupportedAudioFile fs exts p = true := by
      intro p
      simp [getSupportedAudioFiles, hmix, List.mem_filter]
    refine ⟨h1, ?_, ?_⟩
    · intro e1 e2
      have hmix2 : isOnlyDirectories { fs with entries := e1, entriesRec := e2 }
          paths = false := hmix
      simp only [getSupportedAudioFiles, hmix, hmix2, Bool.false_eq_true, if_false]
      rfl
    · intro d hd hdir hmem
      rcases (h1 d).mp hmem with ⟨-, hsup⟩
      have hreg : fs.isRegular d = true := by
        have hs := hsup
        unfold isSupportedAudioFile at hs
        exact (Bool.and_eq_true_iff.mp hs).1
      exact hwf d hd ⟨hdir, hreg⟩

/-- Witness for libraryTraversalAllOrNothing on the sample filesystem and
the mixed path list: the regular file is kept, the directory contributes
nothing. -/
theorem libraryTraversalAllOrNothing_witness :
    (∀ p ∈ samplePaths, ¬ (sampleFS.isDir p = true ∧ sampleFS.isRegular p = true)) ∧
    (isOnlyDirectories sampleFS samplePaths = false) ∧
    (∀ p, p ∈ getSupportedAudioFiles sampleFS [".mp3"] false samplePaths ↔
      p ∈ samplePaths ∧ isSupportedAudioFile sampleFS [".mp3"] p = true) ∧
    (∀ d ∈ samplePaths, sampleFS.isDir d = true →
      d ∉ getSupportedAudioFiles sampleFS [".mp3"] false samplePaths) := by
  have hwf : ∀ p ∈ samplePaths,
      ¬ (sampleFS.isDir p = true ∧ sampleFS.isRegular p = true) := by decide
  have hmix : isOnlyDirectories sampleFS samplePaths = false := by decide
  have hm := (libraryTraversalAllOrNothing sampleFS [".mp3"] false samplePaths hwf).2 hmix
  exact ⟨hwf, hmix, hm.1, hm.2.2⟩

/-- Setting a non idle phase preserves the all scanned property of a
phase list. -/
theorem allScanned_set (l : List TaskPhase) (t : ℕ) (q : TaskPhase)
    (hq : q ≠ TaskPhase.idle) (h : ∀ p ∈ l, p ≠ TaskPhase.idle) :
    ∀ p ∈ l.set t q, p ≠ TaskPhase.idle := by
  intro p hp
  rcases List.mem_or_eq_of_mem_set hp with h1 | h1
  · exact h p h1
  · subst h1
    exact hq

/-- One step of the album unit state machine preserves the exactly once
invariant. -/
theorem stepTask_albInv (s : AlbState) (t : ℕ) (h : albInv s) :
    albInv (stepTask s t) := by
  unfold stepTask
  split
  case _ hg =>
    rcases h with ⟨h1, h2⟩ | ⟨h1, h2, h3⟩
    · exact Or.inl ⟨h1, h2⟩
    · exfalso
      have ht : t < s.phases.length := by
        by_contra hc
        rw [List.getD_eq_default _ _ (le_of_not_lt hc)] at hg
        cases hg
      have hge : s.phases.getD t TaskPhase.released = s.phases[t] :=
        List.getD_eq_getElem _ _ ht
      have hmem : TaskPhase.idle ∈ s.phases := by
        rw [hg] at hge
        rw [hge]
        exact List.getElem_mem ht
      exact h3 TaskPhase.idle hmem rfl
  case _ hg =>
    split
    case _ hc =>
      rcases hc with ⟨hh, hall, hinit⟩
      rcases h with ⟨h1, h2⟩ | ⟨h1, h2, h3⟩
      · refine Or.inr ⟨rfl, by rw [h2], ?_⟩
        exact allScanned_set s.phases t TaskPhase.checked (by intro hx; cases hx) hall
      · rw [h1] at hinit
        cases hinit
    case _ hc =>
      rcases h with ⟨h1, h2⟩ | ⟨h1, h2, h3⟩
      · exact Or.inl ⟨h1, h2⟩
      · exact Or.inr ⟨h1, h2,
          allScanned_set s.phases t TaskPhase.checked (by intro hx; cases hx) h3⟩
  case _ hg =>
    rcases h with ⟨h1, h2⟩ | ⟨h1, h2, h3⟩
    · exact Or.inl ⟨h1, h2⟩
    · exact Or.inr ⟨h1, h2,
        allScanned_set s.phases t TaskPhase.released (by intro hx; cases hx) h3⟩
  case _ hg => exact h

/-- The exactly once invariant holds along any schedule. -/
theorem foldl_stepTask_albInv (sched : List ℕ) (s : AlbState) (h : albInv s) :
    albInv (sched.foldl stepTask s) := by
  induction sched generalizing s with
  | nil => exact h
  | cons t ts ih => exact ih _ (stepTask_albInv _ _ h)

/-- Every reachable state of the album unit state machine satisfies the
exactly once invariant. -/
theorem runSched_albInv (n : ℕ) (sched : List ℕ) : albInv (runSched n sched) :=
  foldl_stepTask_albInv sched (initAlb n) (Or.inl ⟨rfl, rfl⟩)

/-- Claim C1 counterexample: with two member tasks, the interleaving in
which both tasks scan, then both read the use count (each observing 2),
then both release, completes the unit with aggregation having run zero
times, refuting the claim that aggregation runs exactly once under every
interleaving. -/
theorem albumAggregationExactlyOnce_counterexample :
    completeRun 2 [0, 1, 0, 1, 0, 1] ∧
    (runSched 2 [0, 1, 0, 1, 0, 1]).aggCount = 0 := by decide

set_option maxRecDepth 10000 in
/-- Claim C1 amended: under every interleaving, aggregation runs at most
once, and when it has run every member scan had finished; under
serialized completion (the single threaded schedule) it runs exactly once
for units of 1, 5 and 50 members; but (see the counterexample) some
concurrent interleavings finish with aggregation never running, because
the use count check and the reference release are not one atomic action. -/
theorem albumAggregationAtMostOnce :
    (∀ (n : ℕ) (sched : List ℕ),
      (runSched n sched).aggCount ≤ 1 ∧
      (1 ≤ (runSched n sched).aggCount → allScanned (runSched n sched))) ∧
    (runSched 1 (seqSched 1)).aggCount = 1 ∧
    (runSched 5 (seqSched 5)).aggCount = 1 ∧
    (runSched 50 (seqSched 50)).aggCount = 1 := by
  refine ⟨fun n sched => ?_, by decide, by decide, by decide⟩
  rcases runSched_albInv n sched with ⟨h1, h2⟩ | ⟨h1, h2, h3⟩
  · rw [h2]
    exact ⟨by norm_num, fun hc => absurd hc (by norm_num)⟩
  · rw [h2]
    exact ⟨le_refl 1, fun _ => h3⟩

/-- Witness for albumAggregationAtMostOnce at the five member serialized
schedule, where aggregation did run. -/
theorem albumAggregationAtMostOnce_witness :
    (runSched 5 (seqSched 5)).aggCount ≤ 1 ∧
    (1 ≤ (runSched 5 (seqSched 5)).aggCount → allScanned (runSched 5 (seqSched 5))) ∧
    allScanned (runSched 5 (seqSched 5)) := by
  have h := albumAggregationAtMostOnce.1 5 (seqSched 5)
  exact ⟨h.1, h.2, h.2 (by decide)⟩

end Loudgain
